import Mathlib

/-!
Verification development for the gw-dd converter between a RIFF-derived
binary container format and a textual scripting language.

The development shallowly embeds, from the Rust source:
  * the Block/Statement textual model and the `SortingId` ordered-map key
    (src/text/mod.rs),
  * the decoded object model and its `to_block` lowering (src/omni/riff/mxob.rs,
    src/omni/riff/mxst/mod.rs, src/omni/riff/mod.rs),
  * the top-level container check `Omni::parse` (src/omni/mod.rs) and the
    block-collection builder `Text::from_omni` (src/text/mod.rs),
  * the chunk-sequence reader loop `read_chunks` (src/omni/riff/mod.rs),
  * the chunk-header length normalisation (src/omni/riff/mod.rs),
  * the macro preprocessor state machine (src/text/preprocessor.rs),
  * the text-parser output mapping (src/text/parser.rs).

Machine integers are modelled as `Nat`/`Int` with explicit wrapping where
overflow matters; `f64` vector components are modelled as `ℚ` (the code only
compares them for equality against the exact constants 0 and 1); Rust panics
(`unreachable`, `todo`, `unwrap` on `None`) are modelled as `Option.none`.
-/

namespace GwDD

/-- `Vec3` from src/types.rs; `f64` components modelled as rationals. -/
structure Vec3 where
  x : ℚ
  y : ℚ
  z : ℚ
deriving DecidableEq, Repr

def Vec3.ZERO : Vec3 := ⟨0, 0, 0⟩

def Vec3.X : Vec3 := ⟨1, 0, 0⟩

def Vec3.Y : Vec3 := ⟨0, 1, 0⟩

def Vec3.Z : Vec3 := ⟨0, 0, 1⟩

/-- `LoopingMethod` from src/text/mod.rs. -/
inductive LoopingMethod where
  | cache
  | none
  | stream
deriving DecidableEq, Repr

/-- `Duration` from src/text/mod.rs (an `i32`). -/
structure Duration where
  val : Int
deriving DecidableEq, Repr

/-- `PaletteManagement` from src/text/mod.rs. -/
inductive PaletteManagement where
  | none
deriving DecidableEq, Repr

/-- `Transparency` from src/text/mod.rs. -/
inductive Transparency where
  | yes
  | fast
deriving DecidableEq, Repr

/-- `Definition` from src/text/mod.rs. -/
inductive Definition where
  | loopingMethod (l : LoopingMethod)
  | duration (d : Duration)
  | paletteManagement (p : PaletteManagement)
  | transparency (t : Transparency)
deriving DecidableEq, Repr

/-- `Function` from src/text/mod.rs (call form: name plus string arguments). -/
structure FunctionValue where
  name : String
  args : List String
deriving DecidableEq, Repr

/-- `RValue` from src/text/mod.rs. -/
inductive RValue where
  | string (s : String)
  | integer (i : Int)
  | vec3 (v : Vec3)
  | definition (d : Definition)
  | function (f : FunctionValue)
deriving DecidableEq, Repr

/-- `Statement` from src/text/mod.rs. -/
inductive Statement where
  | assignment (name : String) (value : RValue)
  | declaration (name : String)
deriving DecidableEq, Repr

/-- `BlockType` from src/text/mod.rs. -/
inductive BlockType where
  | defineSettings
  | defineObject
  | defineSound
  | defineEvent
  | defineAnim
  | parallelAction
  | defineStill
  | serialAction
deriving DecidableEq, Repr

/-- `Block` from src/text/mod.rs (`id` is a `u32`). -/
structure Block where
  id : Nat
  blockType : BlockType
  name : String
  isWeave : Bool
  statements : List Statement
deriving DecidableEq, Repr

/-- `SortingId` from src/text/mod.rs (`id`, `offset`, `parent_id`,
`parent_offset` are `u32`; `index`, `parent_index` are `usize`). -/
structure SortingId where
  blockType : BlockType
  id : Nat
  offset : Nat
  index : Nat
  parentId : Nat
  parentOffset : Nat
  parentIndex : Nat
deriving DecidableEq, Repr

/-- `impl Ord for SortingId` from src/text/mod.rs: the body's first line is
`return self.id.cmp(&other.id);`, so the comparison is by `id` alone; the
richer tie-break logic written below that `return` in the source is
unreachable and therefore not part of the function's behaviour. -/
def SortingId.cmp (s o : SortingId) : Ordering := compare s.id o.id

/-- `SortingId::from_id_index` from src/text/mod.rs
(`offsets.get(id).unwrap_or(&0)`). -/
def SortingId.fromIdIndex (blockType : BlockType) (id : Nat) (offsets : List Nat)
    (index : Nat) (parentId : Nat) (parentIndex : Nat) : SortingId :=
  { blockType := blockType
    id := id
    offset := (offsets.get? id).getD 0
    index := index
    parentId := parentId
    parentOffset := (offsets.get? parentId).getD 0
    parentIndex := parentIndex }

/-- The ordered block collection `BTreeMap<SortingId, Block>`, modelled as an
association list kept sorted by `SortingId.cmp`. -/
def Blocks := List (SortingId × Block)

/-- `BTreeMap::insert` semantics: descend to the ordered position; on an
equal key the stored value is replaced and the already-present key is kept
(a `BTreeMap` does not update the key on collision). -/
def btreeInsert (k : SortingId) (v : Block) : List (SortingId × Block) →
    List (SortingId × Block)
  | [] => [(k, v)]
  | (k', v') :: rest =>
    match SortingId.cmp k k' with
    | .lt => (k, v) :: (k', v') :: rest
    | .eq => (k', v) :: rest
    | .gt => (k', v') :: btreeInsert k v rest

/-- Every key id in the map after an insertion is the inserted id or one that
was already present. -/
theorem id_mem_of_mem_btreeInsert {k : SortingId} {v : Block}
    {l : List (SortingId × Block)} {p : SortingId × Block}
    (h : p ∈ btreeInsert k v l) :
    p.1.id = k.id ∨ p.1.id ∈ l.map (fun q => q.1.id) := by
  induction l with
  | nil =>
    simp [btreeInsert] at h
    simp [h]
  | cons hd tl ih =>
    obtain ⟨k', v'⟩ := hd
    rcases hcmp : SortingId.cmp k k' with _ | _ | _ <;>
        simp only [btreeInsert, hcmp] at h
    · rcases List.mem_cons.mp h with rfl | h
      · exact Or.inl rfl
      · exact Or.inr (List.mem_map.mpr ⟨p, h, rfl⟩)
    · have hkk : k.id = k'.id := by
        simpa [SortingId.cmp, Nat.compare_eq_eq] using hcmp
      rcases List.mem_cons.mp h with rfl | h
      · exact Or.inl hkk.symm
      · exact Or.inr (List.mem_map.mpr ⟨p, List.mem_cons_of_mem _ h, rfl⟩)
    · rcases List.mem_cons.mp h with rfl | h
      · exact Or.inr (by simp)
      · rcases ih h with h' | h'
        · exact Or.inl h'
        · refine Or.inr ?_
          simp only [List.map_cons, List.mem_cons]
          exact Or.inr h'

/-- Inserting a key whose id is not yet present grows the map by one entry. -/
theorem length_btreeInsert_of_not_mem {k : SortingId} {v : Block}
    {l : List (SortingId × Block)}
    (h : k.id ∉ l.map (fun q => q.1.id)) :
    (btreeInsert k v l).length = l.length + 1 := by
  induction l with
  | nil => simp [btreeInsert]
  | cons hd tl ih =>
    obtain ⟨k', v'⟩ := hd
    simp only [List.map_cons, List.mem_cons, not_or] at h
    obtain ⟨hne, hmem⟩ := h
    rcases hcmp : SortingId.cmp k k' with _ | _ | _ <;>
        simp only [btreeInsert, hcmp]
    · simp
    · exact absurd (by simpa [SortingId.cmp, Nat.compare_eq_eq] using hcmp) hne
    · simp [ih hmem]

/-- Inserting preserves strict ascending order of key ids. -/
theorem pairwise_btreeInsert {k : SortingId} {v : Block}
    {l : List (SortingId × Block)}
    (h : l.Pairwise (fun p q => p.1.id < q.1.id)) :
    (btreeInsert k v l).Pairwise (fun p q => p.1.id < q.1.id) := by
  induction l with
  | nil => simp [btreeInsert]
  | cons hd tl ih =>
    obtain ⟨k', v'⟩ := hd
    rcases List.pairwise_cons.mp h with ⟨hhd, htl⟩
    rcases hcmp : SortingId.cmp k k' with _ | _ | _ <;>
        simp only [btreeInsert, hcmp]
    · have hk : k.id < k'.id := by
        simpa [SortingId.cmp, Nat.compare_eq_lt] using hcmp
      refine List.pairwise_cons.mpr ⟨?_, h⟩
      intro q hq
      rcases List.mem_cons.mp hq with rfl | h'
      · exact hk
      · exact lt_trans hk (hhd q h')
    · exact List.pairwise_cons.mpr ⟨fun q hq => hhd q hq, htl⟩
    · have hk : k'.id < k.id := by
        simpa [SortingId.cmp, Nat.compare_eq_gt] using hcmp
      refine List.pairwise_cons.mpr ⟨?_, ih htl⟩
      intro q hq
      rcases id_mem_of_mem_btreeInsert hq with h' | h'
      · simpa [h'] using hk
      · rcases List.mem_map.mp h' with ⟨q', hq', hq'id⟩
        rw [← hq'id]
        exact hhd q' hq'

/-! ## Chunk headers and the length normalisation (src/omni/riff/mod.rs) -/

/-- The `#[br(map(|x: u32| ((x + 1) & !1)))]` applied to the raw on-disk
`u32` length field of `RiffChunkHeader`: `u32` addition wraps modulo `2^32`,
and `!1 = 0xFFFFFFFE`. -/
def normalizeSize (raw : Nat) : Nat := ((raw + 1) % 2 ^ 32) &&& 0xFFFFFFFE

/-- `RiffChunkHeader` from src/omni/riff/mod.rs; `size` holds the normalised
length. -/
structure RiffChunkHeader where
  size : Nat
deriving DecidableEq, Repr

/-- Reading a `RiffChunkHeader` from a raw on-disk length field applies
`normalizeSize` (the `#[br(map(...))]` attribute). -/
def RiffChunkHeader.read (raw : Nat) : RiffChunkHeader := ⟨normalizeSize raw⟩

/-- `ChunkId` (a 4-byte tag), modelled as its string form. -/
def ChunkId := String
deriving instance DecidableEq, Repr for ChunkId

/-- `OmniVersion` from src/omni/riff/mod.rs. -/
structure OmniVersion where
  hi : Nat
  lo : Nat
deriving DecidableEq, Repr

/-- `MxHd` from src/omni/riff/mod.rs (`buffer_size`, `buffer_count` are
`i32`). -/
structure MxHd where
  header : RiffChunkHeader
  version : OmniVersion
  bufferSize : Int
  bufferCount : Int
deriving DecidableEq, Repr

/-- `MxOf` from src/omni/riff/mod.rs: the offset table (`u32` entries). -/
structure MxOf where
  header : RiffChunkHeader
  offsetCount : Nat
  objects : List Nat
deriving DecidableEq, Repr

/-- `MxChFlags` from src/omni/riff/mod.rs (`end` renamed to `endFlag`). -/
structure MxChFlags where
  unk0 : Nat
  endFlag : Bool
  unk1 : Nat
  split : Bool
  unk2 : Nat
  unk3 : Nat
deriving DecidableEq, Repr

/-- `MxCh` from src/omni/riff/mod.rs. -/
structure MxCh where
  header : RiffChunkHeader
  flags : MxChFlags
  object : Nat
  time : Nat
  data : List Nat
deriving DecidableEq, Repr

/-- `Pad` from src/omni/riff/mod.rs. -/
structure Pad where
  header : RiffChunkHeader
  data : List Nat
deriving DecidableEq, Repr

/-- `ListCount` from src/omni/riff/mod.rs. -/
inductive ListCount where
  | act (values : List Nat)
  | rand (upper : Nat) (value : Nat)
  | count (value : Nat)
deriving DecidableEq, Repr

/-- `MxChList` from src/omni/riff/mod.rs. -/
structure MxChList where
  listCount : ListCount
deriving DecidableEq, Repr

/-- `LISTType` from src/omni/riff/mod.rs. -/
inductive LISTType where
  | mxCh (l : MxChList)
  | other (id : ChunkId)
deriving DecidableEq, Repr

/-! ## Leaf stream objects (src/omni/riff/mxob.rs) -/

/-- `MxObFlags` from src/omni/riff/mxob.rs: the `u32` flags bitfield. -/
structure MxObFlags where
  loopCache : Bool
  noLoop : Bool
  loopStream : Bool
  transparent : Bool
  unk0 : Nat
  unk1 : Bool
  unk2 : Nat
  unk3 : Nat
deriving DecidableEq, Repr

/-- `MxFlcFlags` from src/omni/riff/mxob.rs. -/
structure MxFlcFlags where
  hasPaletteManagement : Bool
  unk0 : Nat
  unk2 : Nat
deriving DecidableEq, Repr

/-- `MxFlcVideo` from src/omni/riff/mxob.rs. -/
structure MxFlcVideo where
  flags : MxFlcFlags
  unk6 : Nat
deriving DecidableEq, Repr

/-- `MxSmkFlags` from src/omni/riff/mxob.rs. -/
structure MxSmkFlags where
  hasPaletteManagement : Bool
  unk0 : Nat
  unk2 : Nat
deriving DecidableEq, Repr

/-- `MxSmkVideo` from src/omni/riff/mxob.rs. -/
structure MxSmkVideo where
  flags : MxSmkFlags
  unk6 : Nat
deriving DecidableEq, Repr

/-- `MxVideoFileType` from src/omni/riff/mxob.rs. -/
inductive MxVideoFileType where
  | flc (f : MxFlcVideo)
  | smk (s : MxSmkVideo)
deriving DecidableEq, Repr

/-- `MxWavObject` from src/omni/riff/mxob.rs (`volume` is `i32`). -/
structure MxWavObject where
  unk5 : Nat
  unk6 : Nat
  volume : Int
deriving DecidableEq, Repr

/-- `MxSoundFileType` from src/omni/riff/mxob.rs. -/
inductive MxSoundFileType where
  | wav (w : MxWavObject)
deriving DecidableEq, Repr

/-- `MxEvtEvent` from src/omni/riff/mxob.rs. -/
structure MxEvtEvent where
  unk5 : Nat
  unk6 : Nat
deriving DecidableEq, Repr

/-- `MxEventFileType` from src/omni/riff/mxob.rs. -/
inductive MxEventFileType where
  | evt (e : MxEvtEvent)
deriving DecidableEq, Repr

/-- `MxStlFlags` from src/omni/riff/mxob.rs. -/
structure MxStlFlags where
  hasPaletteManagement : Bool
  unk0 : Nat
  unk2 : Nat
deriving DecidableEq, Repr

/-- `MxStlObject` from src/omni/riff/mxob.rs. -/
structure MxStlObject where
  flags : MxStlFlags
  unk6 : Nat
deriving DecidableEq, Repr

/-- `MxBitmapFileType` from src/omni/riff/mxob.rs. -/
inductive MxBitmapFileType where
  | stl (s : MxStlObject)
deriving DecidableEq, Repr

/-- `MxObjObject` from src/omni/riff/mxob.rs. -/
structure MxObjObject where
  unk5 : Nat
  unk6 : Nat
deriving DecidableEq, Repr

/-- `MxObjectFileType` from src/omni/riff/mxob.rs. -/
inductive MxObjectFileType where
  | obj (o : MxObjObject)
deriving DecidableEq, Repr

/-- `MxVideo` from src/omni/riff/mxob.rs. `NullString`s are Lean `String`s;
the `ExtraString` is `Option String` (`None` when `extra_size` is 0). -/
structure MxVideo where
  presenter : String
  unk0 : Nat
  name : String
  id : Nat
  flags : MxObFlags
  startTime : Int
  duration : Int
  loops : Int
  location : Vec3
  direction : Vec3
  up : Vec3
  extra : Option String
  filename : String
  unk2 : Nat
  unk3 : Nat
  unk4 : Nat
  filetype : MxVideoFileType
deriving DecidableEq, Repr

/-- `MxSound` from src/omni/riff/mxob.rs. -/
structure MxSound where
  presenter : String
  unk0 : Nat
  name : String
  id : Nat
  flags : MxObFlags
  startTime : Int
  duration : Int
  loops : Int
  location : Vec3
  direction : Vec3
  up : Vec3
  extra : Option String
  filename : String
  unk2 : Nat
  unk3 : Nat
  unk4 : Nat
  filetype : MxSoundFileType
deriving DecidableEq, Repr

/-- `MxEvent` from src/omni/riff/mxob.rs. -/
structure MxEvent where
  presenter : String
  unk0 : Nat
  name : String
  id : Nat
  flags : MxObFlags
  startTime : Int
  duration : Int
  loops : Int
  location : Vec3
  direction : Vec3
  up : Vec3
  extra : Option String
  filename : String
  unk2 : Nat
  unk3 : Nat
  unk4 : Nat
  filetype : MxEventFileType
deriving DecidableEq, Repr

/-- `MxAnimation` from src/omni/riff/mxob.rs. -/
structure MxAnimation where
  presenter : String
  unk0 : Nat
  name : String
  id : Nat
  flags : MxObFlags
  startTime : Int
  duration : Int
  loops : Int
  location : Vec3
  direction : Vec3
  up : Vec3
  extra : Option String
deriving DecidableEq, Repr

/-- `MxBitmap` from src/omni/riff/mxob.rs. -/
structure MxBitmap where
  presenter : String
  unk0 : Nat
  name : String
  id : Nat
  flags : MxObFlags
  startTime : Int
  duration : Int
  loops : Int
  location : Vec3
  direction : Vec3
  up : Vec3
  extra : Option String
  filename : String
  unk2 : Nat
  unk3 : Nat
  unk4 : Nat
  filetype : MxBitmapFileType
deriving DecidableEq, Repr

/-- `MxObject` from src/omni/riff/mxob.rs. -/
structure MxObject where
  presenter : String
  unk0 : Nat
  name : String
  id : Nat
  flags : MxObFlags
  startTime : Int
  duration : Int
  loops : Int
  location : Vec3
  direction : Vec3
  up : Vec3
  extra : Option String
  filename : String
  unk2 : Nat
  unk3 : Nat
  unk4 : Nat
  filetype : MxObjectFileType
deriving DecidableEq, Repr

/-! ## The recursive chunk tree (src/omni/riff/mod.rs, mxob.rs, mxst/mod.rs)

`MxWorld` and `MxPresenter` own a nested `List` container of child chunks,
so the chunk tree is a mutual/nested inductive family. -/

mutual

/-- `RiffChunk` from src/omni/riff/mod.rs. -/
inductive RiffChunk where
  | riff (header : RiffChunkHeader) (riffType : ChunkId) (subchunks : List RiffChunk)
  | list (l : ListChunk)
  | mxHd (h : MxHd)
  | mxOf (o : MxOf)
  | mxCh (c : MxCh)
  | mxOb (o : MxOb)
  | mxSt (s : MxSt)
  | pad (p : Pad)

/-- `List` from src/omni/riff/mod.rs (named `ListChunk` here to avoid the
Lean builtin). -/
inductive ListChunk where
  | mk (header : RiffChunkHeader) (listType : LISTType) (subchunks : List RiffChunk)

/-- `MxOb` from src/omni/riff/mxob.rs. -/
inductive MxOb where
  | mk (header : RiffChunkHeader) (obj : MxObType)

/-- `MxSt` from src/omni/riff/mxst/mod.rs. -/
inductive MxSt where
  | mk (header : RiffChunkHeader) (obj : MxOb) (list : ListChunk)

/-- `MxObType` from src/omni/riff/mxob.rs. -/
inductive MxObType where
  | video (v : MxVideo)
  | sound (s : MxSound)
  | world (w : MxWorld)
  | presenter (p : MxPresenter)
  | event (e : MxEvent)
  | animation (a : MxAnimation)
  | bitmap (b : MxBitmap)
  | object (o : MxObject)

/-- `MxWorld` from src/omni/riff/mxob.rs (same leading fields as the leaf
objects, plus the nested `LIST` of children). -/
inductive MxWorld where
  | mk (presenter : String) (unk0 : Nat) (name : String) (id : Nat)
      (flags : MxObFlags) (startTime : Int) (duration : Int) (loops : Int)
      (location : Vec3) (direction : Vec3) (up : Vec3) (extra : Option String)
      (list : ListChunk)

/-- `MxPresenter` from src/omni/riff/mxob.rs (same leading fields as the
leaf objects, plus the nested `LIST` of children). -/
inductive MxPresenter where
  | mk (presenter : String) (unk0 : Nat) (name : String) (id : Nat)
      (flags : MxObFlags) (startTime : Int) (duration : Int) (loops : Int)
      (location : Vec3) (direction : Vec3) (up : Vec3) (extra : Option String)
      (list : ListChunk)

end

def ListChunk.header : ListChunk → RiffChunkHeader
  | .mk h _ _ => h

def ListChunk.listType : ListChunk → LISTType
  | .mk _ t _ => t

def ListChunk.subchunks : ListChunk → List RiffChunk
  | .mk _ _ s => s

def MxWorld.name : MxWorld → String
  | .mk _ _ n _ _ _ _ _ _ _ _ _ _ => n

def MxPresenter.name : MxPresenter → String
  | .mk _ _ n _ _ _ _ _ _ _ _ _ _ => n

def MxPresenter.id : MxPresenter → Nat
  | .mk _ _ _ i _ _ _ _ _ _ _ _ _ => i

def MxPresenter.flags : MxPresenter → MxObFlags
  | .mk _ _ _ _ f _ _ _ _ _ _ _ _ => f

def MxPresenter.loops : MxPresenter → Int
  | .mk _ _ _ _ _ _ _ l _ _ _ _ _ => l

/-- `MxObType::get_name` from src/omni/riff/mxob.rs. -/
def MxObType.getName : MxObType → String
  | .video x => x.name
  | .sound x => x.name
  | .world x => x.name
  | .presenter x => x.name
  | .event x => x.name
  | .animation x => x.name
  | .bitmap x => x.name
  | .object x => x.name

def MxOb.obj : MxOb → MxObType
  | .mk _ o => o

def MxOb.header : MxOb → RiffChunkHeader
  | .mk h _ => h

/-- `RiffChunk::get_name` from src/omni/riff/mod.rs: every variant except
`MxOb` hits `unreachable` (modelled as `none`). -/
def RiffChunk.getName : RiffChunk → Option String
  | .mxOb x => some x.obj.getName
  | _ => none

/-- `RiffChunk::get_size` from src/omni/riff/mod.rs. -/
def RiffChunk.getSize : RiffChunk → Nat
  | .riff h _ _ => h.size
  | .list l => l.header.size
  | .mxHd h => h.header.size
  | .mxOf o => o.header.size
  | .mxCh c => c.header.size
  | .mxOb o => o.header.size
  | .mxSt (.mk h _ _) => h.size
  | .pad p => p.header.size

/-! ## Lowering (`ToBlock`) -/

/-- The result triple of `ToBlock::to_block`:
`(Option<Block>, Vec<Block>, Vec<Block>)` (primary block, blocks to emit
before, blocks to emit after). -/
def LoweredBlocks := Option Block × List Block × List Block

/-- `impl ToBlock for MxHd` from src/omni/riff/mod.rs. `u32::MAX` id;
`bufferSizeKB` is the `i32` truncating division `buffer_size / 1024`. -/
def MxHd.toBlock (h : MxHd) (_ : Bool) : LoweredBlocks :=
  (some
    { id := 4294967295
      blockType := .defineSettings
      name := "Configuration"
      isWeave := false
      statements :=
        [Statement.assignment "bufferSizeKB" (.integer (Int.tdiv h.bufferSize 1024)),
         Statement.assignment "buffersNum" (.integer h.bufferCount)] },
   [], [])

/-- `impl ToBlock for MxVideo` from src/omni/riff/mxob.rs. -/
def MxVideo.toBlock (v : MxVideo) (topLevel : Bool) : LoweredBlocks :=
  let statements := [Statement.assignment "fileName" (.string v.filename)]
  let statements := statements ++
    (if v.presenter ≠ "" then
      [Statement.assignment "handlerClass" (.string v.presenter)] else [])
  let statements := statements ++
    (if v.location ≠ Vec3.ZERO then
      [Statement.assignment "location" (.vec3 v.location)] else [])
  let statements := statements ++
    (if v.direction ≠ Vec3.Z then
      [Statement.assignment "direction" (.vec3 v.direction)] else [])
  let statements := statements ++
    (if v.up ≠ Vec3.Y then [Statement.assignment "up" (.vec3 v.up)] else [])
  let statements := statements ++
    (match v.filetype with
     | .flc f =>
       if !f.flags.hasPaletteManagement then
         [Statement.assignment "paletteManagement"
           (.definition (.paletteManagement .none))]
       else []
     | .smk s =>
       if !s.flags.hasPaletteManagement then
         [Statement.assignment "paletteManagement"
           (.definition (.paletteManagement .none))]
       else [])
  let statements := statements ++
    (if v.duration ≠ 0 then
      [Statement.assignment "duration" (.definition (.duration ⟨v.duration⟩))]
     else [])
  let statements := statements ++
    (if v.extra.isSome then
      [Statement.assignment "extra" (.string (v.extra.getD ""))] else [])
  (some
    { id := v.id
      blockType := .defineAnim
      name := v.name
      isWeave := topLevel
      statements := statements },
   [], [])

/-- `impl ToBlock for MxSound` from src/omni/riff/mxob.rs; the
`unreachable` branch in the `loopingMethod` emission (no-loop flag clear but
neither loop bit set) is modelled as `none`. -/
def MxSound.toBlock (s : MxSound) (topLevel : Bool) : Option LoweredBlocks :=
  let statements := [Statement.assignment "fileName" (.string s.filename)]
  let statements := statements ++
    (if s.presenter ≠ "" ∧ s.presenter ≠ "Lego3DWavePresenter" then
      [Statement.assignment "handlerClass" (.string s.presenter)] else [])
  let statements := statements ++
    (if s.location ≠ Vec3.ZERO then
      [Statement.assignment "location" (.vec3 s.location)] else [])
  let statements := statements ++
    (if s.direction ≠ Vec3.Z then
      [Statement.assignment "direction" (.vec3 s.direction)] else [])
  let statements := statements ++
    (if s.up ≠ Vec3.Y then [Statement.assignment "up" (.vec3 s.up)] else [])
  let statements := statements ++
    (match s.filetype with
     | .wav wav =>
       if wav.volume ≠ 0x4F then
         [Statement.assignment "volume" (.integer wav.volume)]
       else [])
  let statements := statements ++
    (if s.startTime ≠ 0 then
      [Statement.assignment "startTime" (.integer s.startTime)] else [])
  let statements := statements ++
    (if s.loops ≠ 1 then
      [Statement.assignment "loopCount" (.integer s.loops)] else [])
  match
    (if !s.flags.noLoop then
      if s.flags.loopCache then
        some [Statement.assignment "loopingMethod"
          (.definition (.loopingMethod .cache))]
      else if s.flags.loopStream then
        some [Statement.assignment "loopingMethod"
          (.definition (.loopingMethod .stream))]
      else none
     else some []) with
  | none => none
  | some loopStatements =>
    let statements := statements ++ loopStatements
    let statements := statements ++
      (if s.extra.isSome then
        [Statement.assignment "entityName" (.string (s.extra.getD ""))] else [])
    some
      (some
        { id := s.id
          blockType := .defineSound
          name := s.name
          isWeave := topLevel
          statements := statements },
       [], [])

/-- Rust `str::trim_end_matches`: repeatedly strip the suffix while it
matches (used for `.evt` in `MxEvent::to_block`). The auxiliary fuel is the
string length, which bounds the number of strips for a non-empty pattern. -/
def trimEndMatchesAux : Nat → String → String → String
  | 0, s, _ => s
  | fuel + 1, s, pat =>
    if pat ≠ "" ∧ s.endsWith pat then
      trimEndMatchesAux fuel (s.dropRight pat.length) pat
    else s

def trimEndMatches (s pat : String) : String :=
  trimEndMatchesAux s.length s pat

/-- `impl ToBlock for MxEvent` from src/omni/riff/mxob.rs. -/
def MxEvent.toBlock (e : MxEvent) (topLevel : Bool) : LoweredBlocks :=
  let statements :=
    [Statement.assignment "fileName" (.string (trimEndMatches e.filename ".evt"))]
  let statements := statements ++
    (if e.presenter ≠ "" then
      [Statement.assignment "handlerClass" (.string e.presenter)] else [])
  let statements := statements ++
    (if e.location ≠ Vec3.ZERO then
      [Statement.assignment "location" (.vec3 e.location)] else [])
  let statements := statements ++
    (if e.direction ≠ Vec3.Z then
      [Statement.assignment "direction" (.vec3 e.direction)] else [])
  let statements := statements ++
    (if e.up ≠ Vec3.Y then [Statement.assignment "up" (.vec3 e.up)] else [])
  let statements := statements ++
    (if e.extra.isSome then
      [Statement.assignment "extra" (.string (e.extra.getD ""))] else [])
  (some
    { id := e.id
      blockType := .defineEvent
      name := e.name
      isWeave := topLevel
      statements := statements },
   [], [])

/-- `impl ToBlock for MxBitmap` from src/omni/riff/mxob.rs. -/
def MxBitmap.toBlock (b : MxBitmap) (topLevel : Bool) : LoweredBlocks :=
  let statements := [Statement.assignment "fileName" (.string b.filename)]
  let statements := statements ++
    (if b.presenter ≠ "" then
      [Statement.assignment "handlerClass" (.string b.presenter)] else [])
  let statements := statements ++
    (if b.duration ≠ 0 then
      [Statement.assignment "duration" (.definition (.duration ⟨b.duration⟩))]
     else [])
  let statements := statements ++
    (if b.location ≠ Vec3.ZERO then
      [Statement.assignment "location" (.vec3 b.location)] else [])
  let statements := statements ++
    (if b.direction ≠ Vec3.Z then
      [Statement.assignment "direction" (.vec3 b.direction)] else [])
  let statements := statements ++
    (if b.up ≠ Vec3.Y then [Statement.assignment "up" (.vec3 b.up)] else [])
  let statements := statements ++
    (match b.filetype with
     | .stl stl =>
       if !stl.flags.hasPaletteManagement then
         [Statement.assignment "paletteManagement"
           (.definition (.paletteManagement .none))]
       else [])
  let statements := statements ++
    (if b.flags.transparent then
      [Statement.assignment "transparency" (.definition (.transparency .yes))]
     else [])
  let statements := statements ++
    (if b.extra.isSome then
      [Statement.assignment "extra" (.string (b.extra.getD ""))] else [])
  (some
    { id := b.id
      blockType := .defineStill
      name := b.name
      isWeave := topLevel
      statements := statements },
   [], [])

/-- `impl ToBlock for MxObject` from src/omni/riff/mxob.rs. -/
def MxObject.toBlock (o : MxObject) (topLevel : Bool) : LoweredBlocks :=
  let statements := [Statement.assignment "fileName" (.string o.filename)]
  let statements := statements ++
    (if o.presenter ≠ "" then
      [Statement.assignment "handlerClass" (.string o.presenter)] else [])
  let statements := statements ++
    (if o.location ≠ Vec3.ZERO then
      [Statement.assignment "location" (.vec3 o.location)] else [])
  let statements := statements ++
    (if o.direction ≠ Vec3.Z then
      [Statement.assignment "direction" (.vec3 o.direction)] else [])
  let statements := statements ++
    (if o.up ≠ Vec3.Y then [Statement.assignment "up" (.vec3 o.up)] else [])
  let statements := statements ++
    (if o.duration ≠ 0 then
      [Statement.assignment "duration" (.definition (.duration ⟨o.duration⟩))]
     else [])
  let statements := statements ++
    (if o.extra.isSome then
      [Statement.assignment "extra" (.string (o.extra.getD ""))] else [])
  (some
    { id := o.id
      blockType := .defineObject
      name := o.name
      isWeave := topLevel
      statements := statements },
   [], [])

mutual

/-- `impl ToBlock for RiffChunk` from src/omni/riff/mod.rs: `Riff`, `List`,
`MxOf`, `MxCh` hit `todo` (modelled `none`); `Pad` lowers to no block. -/
def RiffChunk.toBlock : RiffChunk → Bool → Option LoweredBlocks
  | .riff _ _ _, _ => none
  | .list _, _ => none
  | .mxHd h, topLevel => some (MxHd.toBlock h topLevel)
  | .mxOf _, _ => none
  | .mxCh _, _ => none
  | .mxOb o, topLevel => MxOb.toBlock o topLevel
  | .mxSt s, topLevel => MxSt.toBlock s topLevel
  | .pad _, _ => some (none, [], [])

/-- `impl ToBlock for MxOb` from src/omni/riff/mxob.rs. -/
def MxOb.toBlock : MxOb → Bool → Option LoweredBlocks
  | .mk _ obj, topLevel => MxObType.toBlock obj topLevel

/-- `impl ToBlock for MxSt` from src/omni/riff/mxst/mod.rs. -/
def MxSt.toBlock : MxSt → Bool → Option LoweredBlocks
  | .mk _ obj _, topLevel => MxOb.toBlock obj topLevel

/-- `impl ToBlock for MxObType` from src/omni/riff/mxob.rs: `World` and
`Animation` hit `todo` (modelled `none`). -/
def MxObType.toBlock : MxObType → Bool → Option LoweredBlocks
  | .video v, topLevel => some (MxVideo.toBlock v topLevel)
  | .sound s, topLevel => MxSound.toBlock s topLevel
  | .world _, _ => none
  | .presenter p, topLevel => MxPresenter.toBlock p topLevel
  | .event e, topLevel => some (MxEvent.toBlock e topLevel)
  | .animation _, _ => none
  | .bitmap b, topLevel => some (MxBitmap.toBlock b topLevel)
  | .object o, topLevel => some (MxObject.toBlock o topLevel)

/-- `impl ToBlock for MxPresenter` from src/omni/riff/mxob.rs: emits the
suppression-based attribute assignments, then one `Declaration` per child
plus the children's own blocks into `blocks_before`, then `extra`. The
`unreachable` in the `loopingMethod` emission is modelled as `none`. -/
def MxPresenter.toBlock : MxPresenter → Bool → Option LoweredBlocks
  | .mk presenter _ name id flags _ _ loops location direction up extra
      (.mk _ _ subchunks), topLevel =>
    let statements : List Statement := []
    let statements := statements ++
      (if presenter ≠ "" then
        [Statement.assignment "handlerClass" (.string presenter)] else [])
    let statements := statements ++
      (if location ≠ Vec3.ZERO then
        [Statement.assignment "location" (.vec3 location)] else [])
    let statements := statements ++
      (if direction ≠ Vec3.Z then
        [Statement.assignment "direction" (.vec3 direction)] else [])
    let statements := statements ++
      (if up ≠ Vec3.Y then [Statement.assignment "up" (.vec3 up)] else [])
    let statements := statements ++
      (if loops ≠ 1 then [Statement.assignment "loopCount" (.integer loops)]
       else [])
    match
      (if !flags.noLoop then
        if flags.loopCache then
          some [Statement.assignment "loopingMethod"
            (.definition (.loopingMethod .cache))]
        else if flags.loopStream then
          some [Statement.assignment "loopingMethod"
            (.definition (.loopingMethod .stream))]
        else none
       else some []) with
    | none => none
    | some loopStatements =>
      match MxPresenter.lowerChildren subchunks with
      | none => none
      | some (childStatements, blocksBefore) =>
        let statements := statements ++ loopStatements ++ childStatements
        let statements := statements ++
          (if extra.isSome then
            [Statement.assignment "extra" (.string (extra.getD ""))] else [])
        some
          (some
            { id := id
              blockType := .parallelAction
              name := name
              isWeave := topLevel
              statements := statements },
           blocksBefore, [])

/-- The child loop of `MxPresenter::to_block`: per child chunk, one
`Declaration` of its name (`unreachable` for non-`MxOb` chunks, modelled
`none`) and the child's lowered blocks gathered as
`blocks_before ++ primary ++ blocks_after`. -/
def MxPresenter.lowerChildren :
    List RiffChunk → Option (List Statement × List Block)
  | [] => some ([], [])
  | c :: rest =>
    match RiffChunk.getName c with
    | none => none
    | some childName =>
      match RiffChunk.toBlock c false with
      | none => none
      | some (block, before, after) =>
        match MxPresenter.lowerChildren rest with
        | none => none
        | some (statements, blocks) =>
          some (Statement.declaration childName :: statements,
                (before ++ block.toList ++ after) ++ blocks)

end

/-! ## Top-level container check and the order reconstructor
(src/omni/mod.rs, src/text/mod.rs) -/

/-- `Omni` from src/omni/mod.rs. -/
structure Omni where
  containerType : ChunkId
  header : MxHd
  offsets : MxOf
  streams : ListChunk

/-- `OmniParseError` from src/omni/mod.rs (the `BinRW` wrapper of byte-level
errors lives in the external binary-reading layer and is out of scope). -/
inductive OmniParseError where
  | noRiffChunk
  | notOmni (id : ChunkId)
  | unknownLayout

/-- `Omni::parse` from src/omni/mod.rs, on an already-read top-level chunk
tree: the top chunk must be a `RIFF` container, its contained type must be
`OMNI` or `MxSt`, and it must have exactly the three children
`[MxHd, MxOf, LIST]` — any other shape is `UnknownLayout`. -/
def omniParse (c : RiffChunk) : Except OmniParseError Omni :=
  match c with
  | .riff _ riffType subchunks =>
    if riffType = ("OMNI" : String) ∨ riffType = ("MxSt" : String) then
      match subchunks with
      | [.mxHd header, .mxOf offsets, .list streams] =>
        .ok ⟨riffType, header, offsets, streams⟩
      | _ => .error .unknownLayout
    else .error (.notOmni riffType)
  | _ => .error .noRiffChunk

/-- `Text` from src/text/mod.rs: the settings block plus the ordered block
collection. -/
structure Text where
  settings : Block
  blocks : List (SortingId × Block)

/-- One `enumerate`d auxiliary-block insertion loop of `Text::from_omni`
(used for both `blocks_before` and `blocks_after`): each auxiliary block is
keyed by its own id and position, with the parent's id and index. -/
def insertAuxBlocks (offsets : List Nat) (parentId : Nat) (parentIndex : Nat)
    (m : List (SortingId × Block)) (blocks : List Block) :
    List (SortingId × Block) :=
  (blocks.enum).foldl
    (fun m p =>
      btreeInsert
        (SortingId.fromIdIndex p.2.blockType p.2.id offsets p.1 parentId
          parentIndex)
        p.2 m)
    m

/-- The `for (index, chunk) in omni.streams.subchunks.iter().enumerate()`
loop body of `Text::from_omni`: lower the chunk (`none` propagates a panic),
skip it if it produced no primary block, otherwise insert the primary block
and then the auxiliary blocks. -/
def fromOmniAux (offsets : List Nat) :
    List RiffChunk → Nat → List (SortingId × Block) →
    Option (List (SortingId × Block))
  | [], _, m => some m
  | chunk :: rest, index, m =>
    match RiffChunk.toBlock chunk true with
    | none => none
    | some (block, blocksBefore, blocksAfter) =>
      let m' :=
        match block with
        | none => m
        | some b =>
          let sortingId :=
            SortingId.fromIdIndex b.blockType b.id offsets index b.id index
          let parentId := b.id
          let m := btreeInsert sortingId b m
          let m := insertAuxBlocks offsets parentId index m blocksBefore
          insertAuxBlocks offsets parentId index m blocksAfter
      fromOmniAux offsets rest (index + 1) m'

/-- `Text::from_omni` from src/text/mod.rs. The header always lowers to a
settings block; every stream subchunk is lowered at top level and placed
into the `BTreeMap` keyed by `SortingId`. -/
def fromOmni (o : Omni) : Option Text :=
  match MxHd.toBlock o.header true with
  | (some settings, _, _) =>
    (fromOmniAux o.offsets.objects o.streams.subchunks 0 []).map
      (fun blocks => { settings := settings, blocks := blocks })
  | (none, _, _) => none

/-- `Text::collect` from src/text/mod.rs renders the settings block first and
then the collection's values in `BTreeMap` iteration (key) order; this is the
sequence of blocks whose printed forms are concatenated. -/
def Text.renderedBlocks (t : Text) : List Block :=
  t.settings :: t.blocks.map Prod.snd

/-! ## The chunk-sequence reader loop `read_chunks` (src/omni/riff/mod.rs)

The loop is modelled over an abstract element reader
`readOne : position → buffer size → outcome` standing for
`RiffChunk::read_options` (whose byte-level decoding is performed by the
external `binrw` layer). Positions are `Int` (`u64` in the source, always
non-negative); the buffer size is the `i32` of the source. `%` on `i32` is
Rust's truncating remainder, `Int.tmod`. -/

/-- Outcome of one `RiffChunk::read_options` call: a chunk plus the stream
position after it, an end-of-file error (`e.is_eof()`, which terminates the
sequence normally), or any other error (propagated). -/
inductive ReadOutcome where
  | ok (c : RiffChunk) (newPos : Int)
  | eofErr
  | otherErr

/-- The `before as i32` cast in `read_chunks`: the `u64` stream position is
truncated to its low 32 bits and reinterpreted as a two's-complement `i32`
before the `% buf_size` remainder is taken. -/
def wrapToI32 (x : Int) : Int :=
  let r := x % 2 ^ 32
  if r < 2 ^ 31 then r else r - 2 ^ 32

/-- The `while` loop of `read_chunks`, with explicit fuel (the source loop's
termination relies on the reader making progress). Per iteration: stop when
fewer than 8 bytes (tag + length header) remain before `max_pos`; skip to
the next buffer start when the 8-byte header would straddle a buffer
boundary (the position is pushed through the `before as i32` cast before
the `i32` remainder is taken); otherwise read one chunk, reseek to
`before + size + 8` if the reader came up short, adopt a new buffer size if
the chunk was the `MxHd` header, and append the chunk. On `eof` break; on
any other error fail. After the loop, seek to `max_pos` if short of it.
`none` models a propagated error (or fuel exhaustion, which the source's
assumed progress rules out). -/
def readChunksAux (readOne : Int → Int → ReadOutcome) :
    Nat → Int → Int → Int → List RiffChunk → Option (List RiffChunk × Int)
  | 0, _, _, _, _ => none
  | fuel + 1, bufSize, pos, maxPos, acc =>
    if pos + 8 < maxPos then
      let posInBuffer := Int.tmod (wrapToI32 pos) bufSize
      if posInBuffer + 8 > bufSize then
        readChunksAux readOne fuel bufSize (pos + (bufSize - posInBuffer))
          maxPos acc
      else
        match readOne pos bufSize with
        | .ok c newPos =>
          let afterPos :=
            if newPos < pos + (c.getSize : Int) + 8 then
              pos + (c.getSize : Int) + 8
            else newPos
          let bufSize' :=
            match c with
            | .mxHd h => h.bufferSize
            | _ => bufSize
          readChunksAux readOne fuel bufSize' afterPos maxPos (acc ++ [c])
        | .eofErr => some (acc, if pos < maxPos then maxPos else pos)
        | .otherErr => none
    else
      some (acc, if pos < maxPos then maxPos else pos)

/-- `read_chunks(size, buf_size)` from src/omni/riff/mod.rs, entered at
stream position `pos`: `max_pos = pos + size`. -/
def readChunks (readOne : Int → Int → ReadOutcome) (fuel : Nat) (size : Int)
    (bufSize : Int) (pos : Int) : Option (List RiffChunk × Int) :=
  readChunksAux readOne fuel bufSize pos (pos + size) []

/-! ## The macro preprocessor (src/text/preprocessor.rs) -/

/-- `PreprocessorState` from src/text/preprocessor.rs. -/
inductive PreprocessorState where
  | expecting
  | slash
  | skipLine
  | skipComment
  | endComment
  | directive
  | directiveParameter
  | directiveString
deriving DecidableEq, Repr

/-- `Directive` from src/text/preprocessor.rs. -/
inductive Directive where
  | define
  | includeDirective
deriving DecidableEq, Repr

/-- `PreprocessError` from src/text/preprocessor.rs. -/
inductive PreprocessError where
  | unexpectedToken (c : Char) (line column : Nat)
  | unexpectedEndState (s : PreprocessorState)
  | unknownDirective (name : List Char) (line column : Nat)
  | noParams (d : Directive) (line column : Nat)
  | tooManyParameters (d : Directive) (line column : Nat)
deriving DecidableEq, Repr

/-- The `definitions: HashMap<String, String>` of the `Preprocessor`,
modelled as an association list iterated in insertion order (the source
map's iteration order is unspecified; this is one determinisation of it). -/
def Definitions := List (List Char × List Char)

/-- `HashMap::insert`: replace the value under an existing key, else
append. -/
def definitionsInsert (k v : List Char) : Definitions → Definitions
  | [] => [(k, v)]
  | (k', v') :: rest =>
    if k' = k then (k', v) :: rest else (k', v') :: definitionsInsert k v rest

/-- The macro-substitution scan in the `Expecting` state of
`Preprocessor::preprocess` (the `for (k, v) in &self.definitions` loop): the
first definition `k ↦ v` with `index + k.len() < chars.len()` and
`chars[index..index + k.len()] == k` yields `(v, k.len())`; otherwise no
substitution happens at this index. -/
def findSubst (defs : Definitions) (chars : List Char) (index : Nat) :
    Option (List Char × Nat) :=
  match defs with
  | [] => none
  | (k, v) :: rest =>
    if index + k.length < chars.length ∧ (chars.drop index).take k.length = k
    then some (v, k.length)
    else findSubst rest chars index

/-- `parse_directive_buf` from src/text/preprocessor.rs. -/
def parseDirectiveBuf (buf : List Char) (line column : Nat) :
    Except PreprocessError Directive :=
  if buf = "define".data then .ok .define
  else if buf = "include".data then .ok .includeDirective
  else .error (.unknownDirective buf line column)

/-- `directive_parameter_buf.last_mut().unwrap().push(c)`: `none` models the
`unwrap` panic on an empty buffer. -/
def pushLast (l : List (List Char)) (c : Char) : Option (List (List Char)) :=
  match l.getLast? with
  | none => none
  | some last => some (l.dropLast ++ [last ++ [c]])

/-- The mutable locals of `Preprocessor::preprocess`. -/
structure PPState where
  defs : Definitions
  rv : List Char
  previousState : PreprocessorState
  state : PreprocessorState
  index : Nat
  line : Nat
  column : Nat
  directiveBuf : List Char
  directive : Directive
  directiveParameterBuf : List (List Char)
  directiveParameterDelimiter : Char
  directiveLine : Nat
  directiveColumn : Nat

/-- The `'preprocess_loop` of `Preprocessor::preprocess`, one constructor
case per state/character arm of the source `match`. `none` models a panic
(an `unwrap` failure) or fuel exhaustion; the fuel chosen by `preprocess`
can only be exhausted by substituting a zero-length macro name, on which the
source itself loops forever. -/
def preprocessAux (chars : List Char) :
    Nat → PPState → Option (Except PreprocessError (List Char))
  | 0, _ => none
  | fuel + 1, st =>
    match chars.get? st.index with
    | none =>
      match st.state with
      | .expecting => some (.ok st.rv)
      | .skipLine => some (.ok st.rv)
      | s => some (.error (.unexpectedEndState s))
    | some c =>
      if c = '\r' then
        preprocessAux chars fuel
          { st with index := st.index + 1, column := st.column + 1 }
      else
        match st.state with
        | .expecting =>
          if c = '/' then
            preprocessAux chars fuel
              { st with previousState := st.state, state := .slash,
                        index := st.index + 1, column := st.column + 1 }
          else if c = '#' then
            preprocessAux chars fuel
              { st with previousState := st.state, state := .directive,
                        directiveBuf := [], directiveLine := st.line,
                        directiveColumn := st.column,
                        index := st.index + 1, column := st.column + 1 }
          else if c = '\n' then
            preprocessAux chars fuel
              { st with column := 0, line := st.line + 1,
                        index := st.index + 1, rv := st.rv ++ [c] }
          else
            match findSubst st.defs chars st.index with
            | some (v, len) =>
              preprocessAux chars fuel
                { st with rv := st.rv ++ v, index := st.index + len }
            | none =>
              preprocessAux chars fuel
                { st with rv := st.rv ++ [c],
                          index := st.index + 1, column := st.column + 1 }
        | .slash =>
          if c = '/' then
            preprocessAux chars fuel
              { st with state := .skipLine,
                        index := st.index + 1, column := st.column + 1 }
          else if c = '*' then
            preprocessAux chars fuel
              { st with state := .skipComment,
                        index := st.index + 1, column := st.column + 1 }
          else some (.error (.unexpectedToken c st.line st.column))
        | .skipLine =>
          if c = '\n' then
            preprocessAux chars fuel
              { st with state := st.previousState, column := 0,
                        line := st.line + 1, index := st.index + 1,
                        rv := st.rv ++ [c] }
          else
            preprocessAux chars fuel
              { st with index := st.index + 1, column := st.column + 1 }
        | .skipComment =>
          if c = '*' then
            preprocessAux chars fuel
              { st with state := .endComment,
                        index := st.index + 1, column := st.column + 1 }
          else
            preprocessAux chars fuel
              { st with index := st.index + 1, column := st.column + 1 }
        | .endComment =>
          if c = '/' then
            preprocessAux chars fuel
              { st with state := st.previousState,
                        index := st.index + 1, column := st.column + 1 }
          else some (.error (.unexpectedToken c st.line st.column))
        | .directive =>
          if c = ' ' ∨ c = '\t' then
            match parseDirectiveBuf st.directiveBuf st.directiveLine
                st.directiveColumn with
            | .error e => some (.error e)
            | .ok d =>
              preprocessAux chars fuel
                { st with directive := d, state := .directiveParameter,
                          directiveParameterBuf := [[]],
                          index := st.index + 1, column := st.column + 1 }
          else if c = '"' ∨ c = '<' then
            match parseDirectiveBuf st.directiveBuf st.directiveLine
                st.directiveColumn with
            | .error e => some (.error e)
            | .ok d =>
              preprocessAux chars fuel
                { st with directive := d, state := .directiveParameter,
                          directiveParameterBuf := [[]] }
          else if c = '\n' then
            some (.error (.unexpectedToken c st.line st.column))
          else
            preprocessAux chars fuel
              { st with directiveBuf := st.directiveBuf ++ [c],
                        index := st.index + 1, column := st.column + 1 }
        | .directiveParameter =>
          if c = '"' ∨ c = '<' then
            match pushLast st.directiveParameterBuf c with
            | none => none
            | some buf =>
              preprocessAux chars fuel
                { st with directiveParameterDelimiter := c,
                          state := .directiveString,
                          directiveParameterBuf := buf,
                          index := st.index + 1, column := st.column + 1 }
          else if c = '\n' then
            match st.directiveParameterBuf.getLast? with
            | none => none
            | some last =>
              let buf :=
                if last.isEmpty then st.directiveParameterBuf.dropLast
                else st.directiveParameterBuf
              match st.directive with
              | .define =>
                match buf with
                | [k] =>
                  preprocessAux chars fuel
                    { st with defs := definitionsInsert k [] st.defs,
                              state := st.previousState,
                              index := st.index + 1, column := st.column + 1 }
                | [k, v] =>
                  preprocessAux chars fuel
                    { st with defs := definitionsInsert k v st.defs,
                              state := st.previousState,
                              index := st.index + 1, column := st.column + 1 }
                | [] =>
                  some (.error (.noParams .define st.directiveLine
                    st.directiveColumn))
                | _ =>
                  some (.error (.tooManyParameters .define st.directiveLine
                    st.directiveColumn))
              | .includeDirective =>
                match buf with
                | [_] =>
                  preprocessAux chars fuel
                    { st with state := st.previousState,
                              index := st.index + 1, column := st.column + 1 }
                | [] =>
                  some (.error (.noParams .includeDirective st.directiveLine
                    st.directiveColumn))
                | _ =>
                  some (.error (.tooManyParameters .includeDirective
                    st.directiveLine st.directiveColumn))
          else if c = ' ' ∨ c = '\t' then
            match st.directiveParameterBuf.getLast? with
            | none => none
            | some last =>
              let buf :=
                if !last.isEmpty then st.directiveParameterBuf ++ [[]]
                else st.directiveParameterBuf
              preprocessAux chars fuel
                { st with directiveParameterBuf := buf,
                          index := st.index + 1, column := st.column + 1 }
          else
            match pushLast st.directiveParameterBuf c with
            | none => none
            | some buf =>
              preprocessAux chars fuel
                { st with directiveParameterBuf := buf,
                          index := st.index + 1, column := st.column + 1 }
        | .directiveString =>
          if c = st.directiveParameterDelimiter then
            match pushLast st.directiveParameterBuf c with
            | none => none
            | some buf =>
              preprocessAux chars fuel
                { st with directiveParameterBuf := buf ++ [[]],
                          state := .directiveParameter,
                          index := st.index + 1, column := st.column + 1 }
          else if c = '\n' then
            some (.error (.unexpectedToken c st.line st.column))
          else
            match pushLast st.directiveParameterBuf c with
            | none => none
            | some buf =>
              preprocessAux chars fuel
                { st with directiveParameterBuf := buf,
                          index := st.index + 1, column := st.column + 1 }

/-- `Preprocessor::preprocess` from src/text/preprocessor.rs, run with the
given starting `definitions` table (empty for a fresh `Preprocessor`). Each
loop iteration advances `index` (by at least one, except the one
re-dispatched character on entering a directive parameter), so
`2 * length + 2` fuel covers every terminating source run. -/
def preprocess (defs : Definitions) (file : List Char) :
    Option (Except PreprocessError (List Char)) :=
  preprocessAux file (2 * file.length + 2)
    { defs := defs, rv := [], previousState := .expecting,
      state := .expecting, index := 0, line := 0, column := 0,
      directiveBuf := [], directive := .define, directiveParameterBuf := [],
      directiveParameterDelimiter := '"', directiveLine := 0,
      directiveColumn := 0 }

/-! ## The text-parser output mapping (src/text/parser.rs) -/

/-- `matches!(a.block_type, BlockType::DefineSettings)`. -/
def isSettingsBlock (b : Block) : Bool :=
  match b.blockType with
  | .defineSettings => true
  | _ => false

/-- The `blocks.sort_by(|a, _| if settings(a) { Greater } else { Less })`
in `Text::parser`: a stable sort under that comparator moves the settings
block behind all non-settings blocks and keeps the relative order of the
non-settings blocks. (When more than one settings block is present the Rust
comparator is inconsistent and the sort order unspecified; this model keeps
each group stable, one valid outcome.) -/
def sortSettingsLast (blocks : List Block) : List Block :=
  blocks.filter (fun b => !isSettingsBlock b) ++ blocks.filter isSettingsBlock

/-- The output mapping of `Text::parser` from src/text/parser.rs: sort the
settings block to the back, `pop().unwrap()` it (`none` models the panic on
an empty block list), and build the `BTreeMap` from the remaining blocks
enumerated in file order, each keyed by
`SortingId::from_id_index(block_type, 0, &[], index, 0, 0)`. -/
def parserOutput (blocks : List Block) : Option Text :=
  let sorted := sortSettingsLast blocks
  match sorted.getLast? with
  | none => none
  | some settings =>
    some
      { settings := settings
        blocks :=
          (sorted.dropLast.enum).foldl
            (fun m p =>
              btreeInsert (SortingId.fromIdIndex p.2.blockType 0 [] p.1 0 0)
                p.2 m)
            [] }

/-! ## Theorems for the claims -/

/-- Clearing the lowest bit with the `!1` mask, written through `/` and `%`. -/
theorem and_mask_fffffffe (y : Nat) :
    y &&& 0xFFFFFFFE = 2 * ((y / 2) % 2 ^ 31) := by
  have h2 : (y &&& 0xFFFFFFFE) % 2 = 0 := by
    rcases Nat.mod_two_eq_zero_or_one (y &&& 0xFFFFFFFE) with h | h
    · exact h
    · have := (Nat.and_mod_two_eq_one (a := y) (b := 0xFFFFFFFE)).mp h
      omega
  have h3 : (y &&& 0xFFFFFFFE) / 2 = (y / 2) % 2 ^ 31 := by
    have hm : (0xFFFFFFFE : Nat) / 2 = 2 ^ 31 - 1 := by norm_num
    rw [Nat.and_div_two, hm, Nat.and_pow_two_sub_one_eq_mod]
  omega

/-- C7 (counterexample): the maximal odd on-disk length `0xFFFFFFFF` wraps:
`(0xFFFFFFFF + 1) & !1` in `u32` arithmetic is `0`, not the raw value plus
one, so "a chunk whose on-disk length field is odd decodes to that raw value
plus one" fails at this input. -/
theorem normalizeSize_wraps_at_maximal_odd :
    RiffChunkHeader.read 0xFFFFFFFF = ⟨0⟩ ∧
    normalizeSize 0xFFFFFFFF ≠ 0xFFFFFFFF + 1 := by
  constructor
  · show RiffChunkHeader.mk (normalizeSize 0xFFFFFFFF) = ⟨0⟩
    have : normalizeSize 0xFFFFFFFF = 0 := by decide
    rw [this]
  · decide

/-- C7 (amended): every header length stored by `RiffChunkHeader::read` is
even; an even on-disk length below `2^32` is unchanged; an odd on-disk
length below `2^32` decodes to the raw value plus one except for
`0xFFFFFFFF`, whose increment wraps to `0`. -/
theorem normalizeSize_parity (x : Nat) (hx : x < 2 ^ 32) :
    (RiffChunkHeader.read x).size % 2 = 0 ∧
    (x % 2 = 0 → (RiffChunkHeader.read x).size = x) ∧
    (x % 2 = 1 → x ≠ 0xFFFFFFFF → (RiffChunkHeader.read x).size = x + 1) := by
  show normalizeSize x % 2 = 0 ∧ (x % 2 = 0 → normalizeSize x = x) ∧
    (x % 2 = 1 → x ≠ 0xFFFFFFFF → normalizeSize x = x + 1)
  unfold normalizeSize
  rw [and_mask_fffffffe]
  have h32 : (2 : Nat) ^ 32 = 4294967296 := by norm_num
  have h31 : (2 : Nat) ^ 31 = 2147483648 := by norm_num
  rw [h32, h31] at *
  refine ⟨by omega, fun he => by omega, fun ho hne => by omega⟩

/-- Witness for C7's amended theorem at concrete inputs. -/
theorem normalizeSize_parity_witness :
    ((RiffChunkHeader.read 6).size % 2 = 0 ∧
      (6 % 2 = 0 → (RiffChunkHeader.read 6).size = 6) ∧
      (6 % 2 = 1 → 6 ≠ 0xFFFFFFFF → (RiffChunkHeader.read 6).size = 6 + 1)) ∧
    ((RiffChunkHeader.read 5).size % 2 = 0 ∧
      (5 % 2 = 0 → (RiffChunkHeader.read 5).size = 5) ∧
      (5 % 2 = 1 → 5 ≠ 0xFFFFFFFF → (RiffChunkHeader.read 5).size = 5 + 1)) :=
  ⟨normalizeSize_parity 6 (by norm_num), normalizeSize_parity 5 (by norm_num)⟩

/-- C2 (counterexample): the straddle check computes
`(before as i32) % buf_size`, wrapping the `u64` position through an `i32`
cast. At stream position `2^31 + 10` with buffer size 16 the header truly
straddles a buffer boundary (`(2^31 + 10) mod 16 + 8 = 18 > 16`), but the
wrapped position is negative, its `i32` remainder is `-6`, `-6 + 8 ≤ 16`,
and the loop does *not* skip: with fuel 1 it reaches the element reader at
that very position (the `eof` outcome drives the normal break, which a skip
— a fuel-consuming recursion — could not have produced). So the claim's
unrestricted "whenever `(p mod B) + 8 > B` the reader skips" is false of
the program. -/
theorem readChunks_no_skip_past_i32_range :
    readChunksAux (fun _ _ => ReadOutcome.eofErr) 1 16 (2 ^ 31 + 10)
        (2 ^ 31 + 100) [] = some ([], 2 ^ 31 + 100) ∧
    (16 : Int) < (2 ^ 31 + 10) % 16 + 8 :=
  ⟨rfl, by decide⟩

/-- C2 (amended): whenever the chunk-sequence reader is about to read the
next chunk header at a position `pos < 2^31` (where the `before as i32`
cast is the identity) with buffer size `bufSize` and
`(pos mod bufSize) + 8 > bufSize`, one loop iteration advances exactly by
`bufSize - (pos mod bufSize)` bytes — to the start of the next buffer
(`new position mod bufSize = 0`, strictly forward) — and retries the loop
there; the equality holds for *every* element reader `readOne`, so the
straddling bytes are never handed to the chunk parser. The skip is the
head of the loop body of `read_chunks`, which is the single chunk-sequence
reader used at every nesting depth. At positions at or above `2^31` the
cast wraps and the check misfires (see the counterexample). -/
theorem readChunks_skips_straddling_header (readOne : Int → Int → ReadOutcome)
    (fuel : Nat) (bufSize pos maxPos : Int) (acc : List RiffChunk)
    (hbuf : 0 < bufSize) (hpos : 0 ≤ pos) (hpos31 : pos < 2 ^ 31)
    (hloop : pos + 8 < maxPos)
    (hstraddle : bufSize < Int.tmod pos bufSize + 8) :
    readChunksAux readOne (fuel + 1) bufSize pos maxPos acc
        = readChunksAux readOne fuel bufSize
            (pos + (bufSize - Int.tmod pos bufSize)) maxPos acc ∧
    (pos + (bufSize - Int.tmod pos bufSize)) % bufSize = 0 ∧
    pos < pos + (bufSize - Int.tmod pos bufSize) := by
  have htm : Int.tmod pos bufSize = pos % bufSize :=
    Int.tmod_eq_emod hpos (le_of_lt hbuf)
  have hw : wrapToI32 pos = pos := by
    simp only [wrapToI32]
    rw [Int.emod_eq_of_lt hpos (lt_trans hpos31 (by norm_num))]
    exact if_pos hpos31
  refine ⟨?_, ?_, ?_⟩
  · simp only [readChunksAux, hw]
    rw [if_pos hloop, if_pos (by omega : Int.tmod pos bufSize + 8 > bufSize)]
  · have hsplit : pos + (bufSize - Int.tmod pos bufSize)
        = bufSize * (pos / bufSize + 1) := by
      rw [htm]
      have := Int.emod_add_ediv pos bufSize
      ring_nf
      linarith
    rw [hsplit]
    exact Int.mul_emod_right _ _
  · have hlt : pos % bufSize < bufSize := Int.emod_lt_of_pos pos hbuf
    rw [htm]
    omega

/-- Witness for C2's amended theorem at a concrete straddling position
below `2^31`. -/
theorem readChunks_skips_straddling_header_witness :
    readChunksAux (fun _ _ => ReadOutcome.otherErr) (0 + 1) 16 10 100 []
        = readChunksAux (fun _ _ => ReadOutcome.otherErr) 0 16
            (10 + (16 - Int.tmod 10 16)) 100 [] ∧
    ((10 : Int) + (16 - Int.tmod 10 16)) % 16 = 0 ∧
    (10 : Int) < 10 + (16 - Int.tmod 10 16) :=
  readChunks_skips_straddling_header (fun _ _ => ReadOutcome.otherErr) 0
    16 10 100 [] (by norm_num) (by norm_num) (by norm_num) (by norm_num)
    (by decide)

/-- C6: inserting two distinct blocks under `SortingId` keys that compare
equal (keys carrying the same numeric id — `SortingId::cmp` compares only
ids) leaves a single entry: the first key with the second block's body. The
collision silently overwrites; nothing is raised and the first block is
gone. -/
theorem btreeInsert_collision_overwrites (k₁ k₂ : SortingId) (b₁ b₂ : Block)
    (hid : k₁.id = k₂.id) :
    btreeInsert k₂ b₂ (btreeInsert k₁ b₁ []) = [(k₁, b₂)] ∧
    (btreeInsert k₂ b₂ (btreeInsert k₁ b₁ [])).length = 1 := by
  have hcmp : SortingId.cmp k₂ k₁ = .eq := by
    simp [SortingId.cmp, Nat.compare_eq_eq, hid]
  constructor
  · simp [btreeInsert, hcmp]
  · simp [btreeInsert, hcmp]

/-- Witness for C6 at concrete colliding keys and distinct blocks. -/
theorem btreeInsert_collision_overwrites_witness :
    btreeInsert ⟨.defineSound, 7, 0, 1, 7, 0, 1⟩
        ⟨7, .defineSound, "B", true, []⟩
        (btreeInsert ⟨.defineAnim, 7, 0, 0, 7, 0, 0⟩
          ⟨7, .defineAnim, "A", true, []⟩ []) =
      [(⟨.defineAnim, 7, 0, 0, 7, 0, 0⟩, ⟨7, .defineSound, "B", true, []⟩)] ∧
    (btreeInsert ⟨.defineSound, 7, 0, 1, 7, 0, 1⟩
        ⟨7, .defineSound, "B", true, []⟩
        (btreeInsert ⟨.defineAnim, 7, 0, 0, 7, 0, 0⟩
          ⟨7, .defineAnim, "A", true, []⟩ [])).length = 1 :=
  btreeInsert_collision_overwrites _ _ _ _ rfl

/-- C9: the output mapping of the text parser pops the settings block off
the sorted block list and `unwrap`s it, so on a source text that parses to
zero blocks (for example the empty string) it panics (modelled `none`)
instead of returning a typed parse error. -/
theorem parserOutput_empty_panics : parserOutput [] = none := rfl

/-- Auxiliary-block insertion preserves the ascending-id invariant. -/
theorem pairwise_insertAuxBlocks (offsets : List Nat) (parentId parentIndex : Nat)
    (blocks : List Block) (m : List (SortingId × Block))
    (h : m.Pairwise (fun p q => p.1.id < q.1.id)) :
    (insertAuxBlocks offsets parentId parentIndex m blocks).Pairwise
      (fun p q => p.1.id < q.1.id) := by
  unfold insertAuxBlocks
  generalize blocks.enum = l
  induction l generalizing m with
  | nil => exact h
  | cons hd tl ih =>
    simp only [List.foldl_cons]
    exact ih _ (pairwise_btreeInsert h)

/-- The `from_omni` loop preserves the ascending-id invariant of the
collection. -/
theorem pairwise_fromOmniAux (offsets : List Nat) :
    ∀ (chunks : List RiffChunk) (index : Nat) (m m' : List (SortingId × Block)),
    m.Pairwise (fun p q => p.1.id < q.1.id) →
    fromOmniAux offsets chunks index m = some m' →
    m'.Pairwise (fun p q => p.1.id < q.1.id) := by
  intro chunks
  induction chunks with
  | nil =>
    intro index m m' h heq
    simp only [fromOmniAux] at heq
    cases heq
    exact h
  | cons ch rest ih =>
    intro index m m' h heq
    simp only [fromOmniAux] at heq
    rcases hblk : RiffChunk.toBlock ch true with _ | ⟨blk, bb, ba⟩ <;>
        rw [hblk] at heq
    · exact absurd heq (by simp)
    · rcases blk with _ | b
      · exact ih _ _ _ h heq
      · refine ih _ _ _ ?_ heq
        exact pairwise_insertAuxBlocks _ _ _ _ _
          (pairwise_insertAuxBlocks _ _ _ _ _ (pairwise_btreeInsert h))

def exFlags : MxObFlags :=
  { loopCache := false, noLoop := true, loopStream := false,
    transparent := false, unk0 := 0, unk1 := false, unk2 := 0, unk3 := 0 }

def exSound (id : Nat) (nm : String) : MxSound :=
  { presenter := "", unk0 := 0, name := nm, id := id, flags := exFlags
    startTime := 0, duration := 0, loops := 1
    location := Vec3.ZERO, direction := Vec3.Z, up := Vec3.Y
    extra := none, filename := "HORN.WAV", unk2 := 0, unk3 := 0, unk4 := 0
    filetype := .wav { unk5 := 0, unk6 := 0, volume := 0x4F } }

def exHd : MxHd :=
  { header := ⟨8⟩, version := ⟨1, 0⟩, bufferSize := 10240, bufferCount := 4 }

def exSoundSt (id : Nat) (nm : String) : RiffChunk :=
  .mxSt (.mk ⟨0⟩ (.mk ⟨0⟩ (.sound (exSound id nm))) (.mk ⟨0⟩ (.other "MxDa") []))

/-- A decoded container whose three sounds carry ids `5, 1, 3` in decode
(stream) order. -/
def exOmni531 : Omni :=
  ⟨"OMNI", exHd, ⟨⟨12⟩, 3, [0, 0, 0]⟩,
    .mk ⟨0⟩ (.other "MxDa")
      [exSoundSt 5 "A", exSoundSt 1 "B", exSoundSt 3 "C"]⟩

/-- C3: blocks lowered from a decoded container are kept in pure ascending
order of numeric object id — all insertions go through the `SortingId`-keyed
ordered map whose comparator is id-only, so for every successful
`from_omni` the collection (whose values `Text::collect` renders in key
order after the settings block) is strictly ascending by id, whatever the
decode order; in particular ids decoded in order `5, 1, 3` are rendered in
order `1, 3, 5`. -/
theorem fromOmni_ascending_by_id :
    (∀ (o : Omni) (t : Text), fromOmni o = some t →
      t.blocks.Pairwise (fun p q => p.1.id < q.1.id)) ∧
    (fromOmni exOmni531).map (fun t => t.blocks.map (fun p => p.2.id))
      = some [1, 3, 5] := by
  constructor
  · intro o t heq
    unfold fromOmni at heq
    rcases haux : fromOmniAux o.offsets.objects o.streams.subchunks 0 [] with
        _ | m'
    · rw [MxHd.toBlock] at heq
      rw [haux] at heq
      exact absurd heq (by simp)
    · rw [MxHd.toBlock] at heq
      rw [haux] at heq
      simp only [Option.map_some] at heq
      cases heq
      exact pairwise_fromOmniAux _ _ _ _ _ (by simp) haux
  · rfl

/-- Witness for C3's universally quantified part at the concrete container
(and evaluation of the concrete example). -/
theorem fromOmni_ascending_by_id_witness :
    ((fromOmni exOmni531).get (by rfl)).blocks.Pairwise
      (fun p q => p.1.id < q.1.id) :=
  fromOmni_ascending_by_id.1 exOmni531 ((fromOmni exOmni531).get (by rfl))
    (Option.some_get (by rfl)).symm

/-- Folding the text-direction insertions (all of whose keys carry id `0`)
over a one-entry map collapses to a single entry: the original key with the
last inserted block. -/
theorem parserFold_collapse (items : List (Nat × Block)) (k₀ : SortingId)
    (b₀ : Block) (hk : k₀.id = 0) :
    items.foldl
        (fun m p =>
          btreeInsert (SortingId.fromIdIndex p.2.blockType 0 [] p.1 0 0) p.2 m)
        [(k₀, b₀)]
      = [(k₀, (items.map Prod.snd).getLastD b₀)] := by
  induction items generalizing b₀ with
  | nil => simp
  | cons hd tl ih =>
    have hcmp :
        SortingId.cmp (SortingId.fromIdIndex hd.2.blockType 0 [] hd.1 0 0) k₀
          = .eq := by
      simp [SortingId.cmp, SortingId.fromIdIndex, hk, Nat.compare_eq_eq]
    simp only [List.foldl_cons, btreeInsert, hcmp]
    rw [ih]
    rw [List.map_cons, List.getLastD_cons]

/-- C4 (amended): in the text-parse direction every non-settings block is
indeed inserted under the key
`SortingId(block_type, 0, [], file_order_index, 0, 0)`; but the ordering
compares only the `id` field and every such key has id `0`, so all keys
collide and the resulting document retains at most one entry — the body of
the *last* non-settings block under the *first* one's key — not all blocks
in file order. -/
theorem parserOutput_keeps_last_only (bs : List Block) (t : Text)
    (heq : parserOutput bs = some t) :
    t.blocks.map Prod.snd = ((sortSettingsLast bs).dropLast.getLast?).toList ∧
    (∀ p ∈ t.blocks, p.1.id = 0 ∧ p.1.offset = 0 ∧ p.1.index = 0 ∧
      p.1.parentId = 0 ∧ p.1.parentOffset = 0 ∧ p.1.parentIndex = 0) ∧
    t.blocks.length ≤ 1 := by
  simp only [parserOutput] at heq
  rcases hlast : (sortSettingsLast bs).getLast? with _ | settings <;>
      rw [hlast] at heq
  · exact absurd heq (by simp)
  · simp only [Option.some.injEq] at heq
    subst heq
    rcases hrest : (sortSettingsLast bs).dropLast with _ | ⟨b, rest'⟩
    · simp [hrest]
    · simp only [List.enum_cons, List.foldl_cons]
      have hfirst :
          btreeInsert (SortingId.fromIdIndex b.blockType 0 [] 0 0 0) b []
            = [(SortingId.fromIdIndex b.blockType 0 [] 0 0 0, b)] := rfl
      rw [hfirst, parserFold_collapse _ _ _ (by rfl)]
      refine ⟨?_, ?_, by simp⟩
      · simp [List.getLast?_cons, List.enumFrom_map_snd]
      · intro p hp
        rcases List.mem_singleton.mp hp with rfl
        exact ⟨rfl, rfl, rfl, rfl, rfl, rfl⟩

def exSettingsBlock : Block :=
  { id := 0, blockType := .defineSettings, name := "Cfg", isWeave := false,
    statements := [] }

def exFileBlockA : Block :=
  { id := 0, blockType := .defineSound, name := "First", isWeave := true,
    statements := [] }

def exFileBlockB : Block :=
  { id := 0, blockType := .defineSound, name := "Second", isWeave := true,
    statements := [] }

/-- C4 (counterexample): parsing a file with two distinct non-settings
blocks retains only the last one — the claim that the document retains all
blocks in file order fails. -/
theorem parserOutput_drops_first_block :
    (parserOutput [exSettingsBlock, exFileBlockA, exFileBlockB]).map
        (fun t => t.blocks.map Prod.snd) = some [exFileBlockB] ∧
    exFileBlockA ≠ exFileBlockB := ⟨rfl, by decide⟩

/-- Witness for C4's amended theorem at a concrete parsed block list. -/
theorem parserOutput_keeps_last_only_witness :
    (((parserOutput [exSettingsBlock, exFileBlockA, exFileBlockB]).get
        (by rfl)).blocks.map Prod.snd
      = ((sortSettingsLast
            [exSettingsBlock, exFileBlockA, exFileBlockB]).dropLast.getLast?).toList) ∧
    (∀ p ∈ ((parserOutput [exSettingsBlock, exFileBlockA, exFileBlockB]).get
        (by rfl)).blocks, p.1.id = 0 ∧ p.1.offset = 0 ∧ p.1.index = 0 ∧
      p.1.parentId = 0 ∧ p.1.parentOffset = 0 ∧ p.1.parentIndex = 0) ∧
    ((parserOutput [exSettingsBlock, exFileBlockA, exFileBlockB]).get
        (by rfl)).blocks.length ≤ 1 :=
  parserOutput_keeps_last_only _ _ (Option.some_get (by rfl)).symm

/-- Whether a statement list contains an `Assignment` to the given name. -/
def statementsAssignTo (l : List Statement) (n : String) : Bool :=
  l.any fun st =>
    match st with
    | .assignment m _ => m == n
    | .declaration _ => false

/-- Whether a block contains an `Assignment` statement for the given
field name. -/
def assignsTo (b : Block) (n : String) : Bool :=
  statementsAssignTo b.statements n

theorem statementsAssignTo_append (l₁ l₂ : List Statement) (n : String) :
    statementsAssignTo (l₁ ++ l₂) n
      = (statementsAssignTo l₁ n || statementsAssignTo l₂ n) :=
  List.any_append

theorem statementsAssignTo_ite (P : Prop) [Decidable P]
    (l₁ l₂ : List Statement) (n : String) :
    statementsAssignTo (if P then l₁ else l₂) n
      = if P then statementsAssignTo l₁ n else statementsAssignTo l₂ n := by
  split <;> rfl

/-- C5: every leaf media object — Sound, Video, Event, Bitmap, Object —
whose fields all equal the implicit defaults — location `(0,0,0)`,
direction `(0,0,1)`, up `(0,1,0)`, loop count `1`, duration `0`, empty
presenter class (for sounds, also the built-in default
`"Lego3DWavePresenter"`) — lowers to a block with no `Assignment` for any
of those fields. (World and Presenter are scene-graph containers, not leaf
media objects, and Animation has no lowering at all.) -/
theorem toBlock_suppresses_defaults
    (s : MxSound) (v : MxVideo) (e : MxEvent) (bm : MxBitmap) (ob : MxObject)
    (tl tl' tle tlb tlo : Bool)
    (b : Block) (bb ba : List Block) (b' : Block) (bv av : List Block)
    (be : Block) (ebb eba : List Block) (bbm : Block) (mbb mba : List Block)
    (bob : Block) (obb oba : List Block)
    (hsp : s.presenter = "" ∨ s.presenter = "Lego3DWavePresenter")
    (hsl : s.location = Vec3.ZERO) (hsd : s.direction = Vec3.Z)
    (hsu : s.up = Vec3.Y) (hsc : s.loops = 1) (_hsdur : s.duration = 0)
    (hvp : v.presenter = "") (hvl : v.location = Vec3.ZERO)
    (hvd : v.direction = Vec3.Z) (hvu : v.up = Vec3.Y)
    (_hvc : v.loops = 1) (hvdur : v.duration = 0)
    (hep : e.presenter = "") (hel : e.location = Vec3.ZERO)
    (hed : e.direction = Vec3.Z) (heu : e.up = Vec3.Y)
    (_hec : e.loops = 1) (_hedur : e.duration = 0)
    (hbp : bm.presenter = "") (hbl : bm.location = Vec3.ZERO)
    (hbd : bm.direction = Vec3.Z) (hbu : bm.up = Vec3.Y)
    (_hbc : bm.loops = 1) (hbdur : bm.duration = 0)
    (hop : ob.presenter = "") (hol : ob.location = Vec3.ZERO)
    (hod : ob.direction = Vec3.Z) (hou : ob.up = Vec3.Y)
    (_hoc : ob.loops = 1) (hodur : ob.duration = 0)
    (hs : MxSound.toBlock s tl = some (some b, bb, ba))
    (hv : MxVideo.toBlock v tl' = (some b', bv, av))
    (he : MxEvent.toBlock e tle = (some be, ebb, eba))
    (hb : MxBitmap.toBlock bm tlb = (some bbm, mbb, mba))
    (ho : MxObject.toBlock ob tlo = (some bob, obb, oba)) :
    ∀ n ∈ (["handlerClass", "location", "direction", "up", "loopCount",
            "duration"] : List String),
      assignsTo b n = false ∧ assignsTo b' n = false ∧
      assignsTo be n = false ∧ assignsTo bbm n = false ∧
      assignsTo bob n = false := by
  have hsb : ∀ n ∈ (["handlerClass", "location", "direction", "up",
      "loopCount", "duration"] : List String), assignsTo b n = false := by
    simp only [MxSound.toBlock] at hs
    rcases hloop :
        (if !s.flags.noLoop then
          if s.flags.loopCache then
            some [Statement.assignment "loopingMethod"
              (.definition (.loopingMethod .cache))]
          else if s.flags.loopStream then
            some [Statement.assignment "loopingMethod"
              (.definition (.loopingMethod .stream))]
          else none
         else some []) with _ | loopStatements <;> rw [hloop] at hs
    · exact absurd hs (by simp)
    · have hln : ∀ n ∈ (["handlerClass", "location", "direction", "up",
          "loopCount", "duration"] : List String),
          statementsAssignTo loopStatements n = false := by
        split at hloop
        · split at hloop
          · cases hloop
            intro n hn
            fin_cases hn <;> rfl
          · split at hloop
            · cases hloop
              intro n hn
              fin_cases hn <;> rfl
            · exact absurd hloop (by simp)
        · cases hloop
          intro n hn
          fin_cases hn <;> rfl
      simp only [Option.some.injEq, Prod.mk.injEq] at hs
      obtain ⟨rfl, -, -⟩ := hs
      rcases hsp with hp | hp <;>
        intro n hn <;>
        simp only [assignsTo, statementsAssignTo_append,
          statementsAssignTo_ite, hp, hsl, hsd, hsu, hsc, hln n hn] <;>
        fin_cases hn <;>
        simp [statementsAssignTo]
  have hvb : ∀ n ∈ (["handlerClass", "location", "direction", "up",
      "loopCount", "duration"] : List String), assignsTo b' n = false := by
    simp only [MxVideo.toBlock, Prod.mk.injEq, Option.some.injEq] at hv
    obtain ⟨rfl, -, -⟩ := hv
    rcases hft : v.filetype with f | sm <;>
      intro n hn <;>
      simp only [assignsTo, statementsAssignTo_append,
        statementsAssignTo_ite, hvp, hvl, hvd, hvu, hvdur, hft] <;>
      fin_cases hn <;>
      simp [statementsAssignTo]
  have heb : ∀ n ∈ (["handlerClass", "location", "direction", "up",
      "loopCount", "duration"] : List String), assignsTo be n = false := by
    simp only [MxEvent.toBlock, Prod.mk.injEq, Option.some.injEq] at he
    obtain ⟨rfl, -, -⟩ := he
    intro n hn
    simp only [assignsTo, statementsAssignTo_append,
      statementsAssignTo_ite, hep, hel, hed, heu]
    fin_cases hn <;> simp [statementsAssignTo]
  have hbb : ∀ n ∈ (["handlerClass", "location", "direction", "up",
      "loopCount", "duration"] : List String), assignsTo bbm n = false := by
    simp only [MxBitmap.toBlock, Prod.mk.injEq, Option.some.injEq] at hb
    obtain ⟨rfl, -, -⟩ := hb
    rcases hft : bm.filetype with stl
    intro n hn
    simp only [assignsTo, statementsAssignTo_append,
      statementsAssignTo_ite, hbp, hbl, hbd, hbu, hbdur, hft]
    fin_cases hn <;> simp [statementsAssignTo]
  have hob : ∀ n ∈ (["handlerClass", "location", "direction", "up",
      "loopCount", "duration"] : List String), assignsTo bob n = false := by
    simp only [MxObject.toBlock, Prod.mk.injEq, Option.some.injEq] at ho
    obtain ⟨rfl, -, -⟩ := ho
    intro n hn
    simp only [assignsTo, statementsAssignTo_append,
      statementsAssignTo_ite, hop, hol, hod, hou, hodur]
    fin_cases hn <;> simp [statementsAssignTo]
  exact fun n hn => ⟨hsb n hn, hvb n hn, heb n hn, hbb n hn, hob n hn⟩

def exFlcVideo : MxFlcVideo :=
  { flags := { hasPaletteManagement := true, unk0 := 0, unk2 := 0 }
    unk6 := 0 }

def exDefaultVideo : MxVideo :=
  { presenter := "", unk0 := 0, name := "Intro", id := 3, flags := exFlags
    startTime := 0, duration := 0, loops := 1
    location := Vec3.ZERO, direction := Vec3.Z, up := Vec3.Y
    extra := none, filename := "INTRO.FLC", unk2 := 0, unk3 := 0, unk4 := 0
    filetype := .flc exFlcVideo }

def exDefaultEvent : MxEvent :=
  { presenter := "", unk0 := 0, name := "Click", id := 4, flags := exFlags
    startTime := 0, duration := 0, loops := 1
    location := Vec3.ZERO, direction := Vec3.Z, up := Vec3.Y
    extra := none, filename := "CLICK", unk2 := 0, unk3 := 0, unk4 := 0
    filetype := .evt ⟨0, 0⟩ }

def exStlObject : MxStlObject :=
  { flags := { hasPaletteManagement := true, unk0 := 0, unk2 := 0 }
    unk6 := 0 }

def exDefaultBitmap : MxBitmap :=
  { presenter := "", unk0 := 0, name := "Logo", id := 5, flags := exFlags
    startTime := 0, duration := 0, loops := 1
    location := Vec3.ZERO, direction := Vec3.Z, up := Vec3.Y
    extra := none, filename := "LOGO.STL", unk2 := 0, unk3 := 0, unk4 := 0
    filetype := .stl exStlObject }

def exDefaultObject : MxObject :=
  { presenter := "", unk0 := 0, name := "Cube", id := 6, flags := exFlags
    startTime := 0, duration := 0, loops := 1
    location := Vec3.ZERO, direction := Vec3.Z, up := Vec3.Y
    extra := none, filename := "CUBE", unk2 := 0, unk3 := 0, unk4 := 0
    filetype := .obj ⟨0, 0⟩ }

/-- Witness for C5 at concrete all-defaults leaf objects of every kind,
instantiated at the `"location"` field. -/
theorem toBlock_suppresses_defaults_witness :
    assignsTo
        ⟨2, .defineSound, "Horn", true,
          [.assignment "fileName" (.string "HORN.WAV")]⟩ "location" = false ∧
    assignsTo
        ⟨3, .defineAnim, "Intro", true,
          [.assignment "fileName" (.string "INTRO.FLC")]⟩ "location" = false ∧
    assignsTo
        ⟨4, .defineEvent, "Click", true,
          [.assignment "fileName" (.string "CLICK")]⟩ "location" = false ∧
    assignsTo
        ⟨5, .defineStill, "Logo", true,
          [.assignment "fileName" (.string "LOGO.STL")]⟩ "location" = false ∧
    assignsTo
        ⟨6, .defineObject, "Cube", true,
          [.assignment "fileName" (.string "CUBE")]⟩ "location" = false :=
  toBlock_suppresses_defaults (exSound 2 "Horn") exDefaultVideo
    exDefaultEvent exDefaultBitmap exDefaultObject
    true true true true true
    _ [] [] _ [] [] _ [] [] _ [] [] _ [] []
    (Or.inl rfl) rfl rfl rfl rfl rfl
    rfl rfl rfl rfl rfl rfl
    rfl rfl rfl rfl rfl rfl
    rfl rfl rfl rfl rfl rfl
    rfl rfl rfl rfl rfl rfl
    rfl rfl rfl rfl rfl
    "location" (by simp)

/-- C8: for `Sound` and `Presenter` objects, when the `no_loop` flag is
clear, at least one of `loop_cache`/`loop_stream` must be set for `to_block`
to return normally: with all three clear the `loopingMethod` emission hits
`unreachable` and lowering aborts (`none`) instead of producing a block, and
conversely every normal return has one of the three flags set. -/
theorem toBlock_loop_flags_abort
    (s : MxSound) (p : MxPresenter) (tl tl' : Bool)
    (hs1 : s.flags.noLoop = false) (hs2 : s.flags.loopCache = false)
    (hs3 : s.flags.loopStream = false)
    (hp1 : p.flags.noLoop = false) (hp2 : p.flags.loopCache = false)
    (hp3 : p.flags.loopStream = false) :
    MxSound.toBlock s tl = none ∧ MxPresenter.toBlock p tl' = none ∧
    (∀ (s₂ : MxSound) (t₂ : Bool) (r : LoweredBlocks),
      MxSound.toBlock s₂ t₂ = some r →
      s₂.flags.noLoop = true ∨ s₂.flags.loopCache = true ∨
        s₂.flags.loopStream = true) ∧
    (∀ (p₂ : MxPresenter) (t₂ : Bool) (r : LoweredBlocks),
      MxPresenter.toBlock p₂ t₂ = some r →
      p₂.flags.noLoop = true ∨ p₂.flags.loopCache = true ∨
        p₂.flags.loopStream = true) := by
  refine ⟨?_, ?_, ?_, ?_⟩
  · simp [MxSound.toBlock, hs1, hs2, hs3]
  · obtain ⟨pres, unk0, name, id, flags, st, d, loops, loc, dir, up, extra,
      list⟩ := p
    obtain ⟨lh, lt, subs⟩ := list
    simp only [MxPresenter.flags] at hp1 hp2 hp3
    simp [MxPresenter.toBlock, hp1, hp2, hp3]
  · intro s₂ t₂ r h
    rcases hno : s₂.flags.noLoop with _ | _
    · rcases hlc : s₂.flags.loopCache with _ | _
      · rcases hls : s₂.flags.loopStream with _ | _
        · rw [MxSound.toBlock] at h
          simp [hno, hlc, hls] at h
        · exact Or.inr (Or.inr rfl)
      · exact Or.inr (Or.inl rfl)
    · exact Or.inl rfl
  · intro p₂ t₂ r h
    obtain ⟨pres, unk0, name, id, flags, st, d, loops, loc, dir, up, extra,
      list⟩ := p₂
    obtain ⟨lh, lt, subs⟩ := list
    simp only [MxPresenter.flags]
    rcases hno : flags.noLoop with _ | _
    · rcases hlc : flags.loopCache with _ | _
      · rcases hls : flags.loopStream with _ | _
        · rw [MxPresenter.toBlock] at h
          simp [hno, hlc, hls] at h
        · exact Or.inr (Or.inr rfl)
      · exact Or.inr (Or.inl rfl)
    · exact Or.inl rfl

def exBadFlags : MxObFlags :=
  { loopCache := false, noLoop := false, loopStream := false,
    transparent := false, unk0 := 0, unk1 := false, unk2 := 0, unk3 := 0 }

def exBadSound : MxSound :=
  { (exSound 9 "Bad") with flags := exBadFlags }

def exBadPresenter : MxPresenter :=
  .mk "" 0 "BadP" 10 exBadFlags 0 0 1 Vec3.ZERO Vec3.Z Vec3.Y none
    (.mk ⟨0⟩ (.other "MxDa") [])

/-- Witness for C8 at concrete objects with all three loop bits clear. -/
theorem toBlock_loop_flags_abort_witness :
    MxSound.toBlock exBadSound true = none ∧
    MxPresenter.toBlock exBadPresenter true = none ∧
    (∀ (s₂ : MxSound) (t₂ : Bool) (r : LoweredBlocks),
      MxSound.toBlock s₂ t₂ = some r →
      s₂.flags.noLoop = true ∨ s₂.flags.loopCache = true ∨
        s₂.flags.loopStream = true) ∧
    (∀ (p₂ : MxPresenter) (t₂ : Bool) (r : LoweredBlocks),
      MxPresenter.toBlock p₂ t₂ = some r →
      p₂.flags.noLoop = true ∨ p₂.flags.loopCache = true ∨
        p₂.flags.loopStream = true) :=
  toBlock_loop_flags_abort exBadSound exBadPresenter true true
    rfl rfl rfl rfl rfl rfl

/-- C10: the substitution scan fires only when the matched occurrence ends
strictly before the end of the input (`index + name_length < input_length`),
so a defined macro name whose last character is the final character of the
input is left unexpanded; concretely, with `FOO ↦ bar` defined, the trailing
`FOO` of `"X = FOO"` is not expanded while the inner `FOO` of `"X = FOO;"`
is. -/
theorem preprocess_no_subst_at_end :
    (∀ (defs : Definitions) (chars : List Char) (index : Nat)
        (v : List Char) (len : Nat),
      findSubst defs chars index = some (v, len) →
      index + len < chars.length) ∧
    preprocess [("FOO".data, "bar".data)] "X = FOO".data
      = some (.ok "X = FOO".data) ∧
    preprocess [("FOO".data, "bar".data)] "X = FOO;".data
      = some (.ok "X = bar;".data) := by
  refine ⟨?_, rfl, rfl⟩
  intro defs chars index v len h
  induction defs with
  | nil => simp [findSubst] at h
  | cons hd tl ih =>
    obtain ⟨k, val⟩ := hd
    simp only [findSubst] at h
    split at h
    · rename_i hcond
      simp only [Option.some.injEq, Prod.mk.injEq] at h
      obtain ⟨-, rfl⟩ := h
      exact hcond.1
    · exact ih h

/-- Witness for C10's universally quantified part at a concrete match
inside the input. -/
theorem preprocess_no_subst_at_end_witness :
    0 + "FOO".data.length < "FOOX".data.length :=
  preprocess_no_subst_at_end.1 [("FOO".data, "bar".data)] "FOOX".data 0
    "bar".data "FOO".data.length rfl

/-- The primary block of a top-level stream chunk when its lowering
succeeds with exactly one block and no auxiliary blocks. -/
def primaryOnly (ch : RiffChunk) : Option Block :=
  match RiffChunk.toBlock ch true with
  | some (some b, [], []) => some b
  | _ => none

/-- The primary blocks of a chunk list, defined when every chunk lowers to
exactly one primary block with no auxiliary blocks. -/
def primaryBlocks : List RiffChunk → Option (List Block)
  | [] => some []
  | ch :: rest =>
    match primaryOnly ch with
    | none => none
    | some b =>
      match primaryBlocks rest with
      | none => none
      | some bs => some (b :: bs)

theorem primaryOnly_eq_some {ch : RiffChunk} {b : Block}
    (h : primaryOnly ch = some b) :
    RiffChunk.toBlock ch true = some (some b, [], []) := by
  unfold primaryOnly at h
  rcases htb : RiffChunk.toBlock ch true with _ | ⟨blk, bb, ba⟩ <;>
      rw [htb] at h
  · simp at h
  · rcases blk with _ | b' <;> rcases bb with _ | ⟨x, xs⟩ <;>
        rcases ba with _ | ⟨y, ys⟩ <;> simp_all

/-- When every stream chunk lowers to exactly one fresh-id primary block,
the `from_omni` loop succeeds and adds exactly one map entry per chunk. -/
theorem fromOmniAux_counts (offsets : List Nat) :
    ∀ (chunks : List RiffChunk) (bs : List Block) (index : Nat)
      (m : List (SortingId × Block)),
    primaryBlocks chunks = some bs →
    (∀ b ∈ bs, b.id ∉ m.map (fun p => p.1.id)) →
    (bs.map (fun b => b.id)).Nodup →
    ∃ m', fromOmniAux offsets chunks index m = some m' ∧
      m'.length = m.length + chunks.length := by
  intro chunks
  induction chunks with
  | nil =>
    intro bs index m hpb _ _
    exact ⟨m, rfl, by simp⟩
  | cons ch rest ih =>
    intro bs index m hpb hfresh hnodup
    simp only [primaryBlocks] at hpb
    rcases hpo : primaryOnly ch with _ | b <;> rw [hpo] at hpb
    · exact absurd hpb (by simp)
    · rcases hpr : primaryBlocks rest with _ | bs' <;> rw [hpr] at hpb
      · exact absurd hpb (by simp)
      · simp only [Option.some.injEq] at hpb
        subst hpb
        have htb := primaryOnly_eq_some hpo
        have hmem : b ∈ b :: bs' := List.mem_cons_self b bs'
        rw [List.map_cons, List.nodup_cons] at hnodup
        obtain ⟨hbn, hnd'⟩ := hnodup
        have hm₁len :
            (btreeInsert
              (SortingId.fromIdIndex b.blockType b.id offsets index b.id index)
              b m).length = m.length + 1 :=
          length_btreeInsert_of_not_mem (hfresh b hmem)
        have hfresh' : ∀ b' ∈ bs', b'.id ∉
            (btreeInsert
              (SortingId.fromIdIndex b.blockType b.id offsets index b.id index)
              b m).map (fun p => p.1.id) := by
          intro b' hb' hmem'
          rcases List.mem_map.mp hmem' with ⟨q, hq, hqid⟩
          rcases id_mem_of_mem_btreeInsert hq with h' | h'
          · simp only [SortingId.fromIdIndex] at h'
            have hbb : b'.id = b.id := by rw [← hqid, h']
            exact hbn (hbb ▸ List.mem_map.mpr ⟨b', hb', rfl⟩)
          · exact hfresh b' (List.mem_cons_of_mem _ hb') (hqid ▸ h')
        obtain ⟨m', hm', hlen⟩ := ih bs' (index + 1) _ hpr hfresh' hnd'
        refine ⟨m', ?_, by rw [hlen, hm₁len, List.length_cons]; omega⟩
        simp only [fromOmniAux, htb]
        simpa [insertAuxBlocks] using hm'

/-- C1 (amended): for a valid container (the `Omni::parse` shape check
succeeds) *whose top-level stream objects each lower to exactly one primary
block with no auxiliary blocks and with pairwise distinct object ids*,
`from_omni` succeeds and the rendered output is exactly one define-settings
block followed by exactly one block per top-level stream object
(count-preserving). -/
theorem decode_render_count_preserving (c : RiffChunk) (o : Omni)
    (bs : List Block)
    (_hparse : omniParse c = .ok o)
    (hlower : primaryBlocks o.streams.subchunks = some bs)
    (hids : (bs.map (fun b => b.id)).Nodup) :
    ∃ t, fromOmni o = some t ∧
      t.settings.blockType = .defineSettings ∧
      t.blocks.length = o.streams.subchunks.length ∧
      t.renderedBlocks.length = 1 + o.streams.subchunks.length := by
  obtain ⟨m', hm', hlen⟩ :=
    fromOmniAux_counts o.offsets.objects o.streams.subchunks bs 0 []
      hlower (by simp) hids
  refine ⟨{ settings := ((MxHd.toBlock o.header true).1.getD
      ⟨0, .defineSettings, "", false, []⟩), blocks := m' }, ?_, rfl, ?_, ?_⟩
  · simp only [fromOmni, MxHd.toBlock]
    rw [hm']
    rfl
  · simpa using hlen
  · simp only [List.length_nil] at hlen
    simp only [Text.renderedBlocks, List.length_cons, List.length_map]
    omega

def exOf1 : MxOf := ⟨⟨8⟩, 1, [0, 0, 0]⟩

def exList1 : ListChunk := .mk ⟨0⟩ (.other "MxDa") [exSoundSt 2 "Horn"]

def exChunk1 : RiffChunk :=
  .riff ⟨100⟩ "OMNI" [.mxHd exHd, .mxOf exOf1, .list exList1]

def exOmni1 : Omni := ⟨"OMNI", exHd, exOf1, exList1⟩

/-- Witness for C1's amended theorem at a concrete one-sound container. -/
theorem decode_render_count_preserving_witness :
    ∃ t, fromOmni exOmni1 = some t ∧
      t.settings.blockType = .defineSettings ∧
      t.blocks.length = exOmni1.streams.subchunks.length ∧
      t.renderedBlocks.length = 1 + exOmni1.streams.subchunks.length :=
  decode_render_count_preserving exChunk1 exOmni1
    [⟨2, .defineSound, "Horn", true,
      [.assignment "fileName" (.string "HORN.WAV")]⟩]
    rfl rfl (by decide)

def exWorld : MxWorld :=
  .mk "" 0 "World" 2 exFlags 0 0 1 Vec3.ZERO Vec3.Z Vec3.Y none
    (.mk ⟨0⟩ (.other "MxDa") [])

def exWorldList : ListChunk :=
  .mk ⟨0⟩ (.other "MxDa")
    [.mxSt (.mk ⟨0⟩ (.mk ⟨0⟩ (.world exWorld)) (.mk ⟨0⟩ (.other "MxDa") []))]

def exWorldChunk : RiffChunk :=
  .riff ⟨100⟩ "OMNI" [.mxHd exHd, .mxOf exOf1, .list exWorldList]

def exWorldOmni : Omni := ⟨"OMNI", exHd, exOf1, exWorldList⟩

/-- C1 (counterexample): a container that passes every validity check of the
claim (accepted contained-type, exactly the three children header /
offset table / stream list) but whose stream list holds a `World` object:
decoding succeeds, yet rendering panics (`to_block` hits `todo`, modelled
`none`), so "decode followed by render_text never raises" fails as
stated. -/
theorem decode_render_raises_on_world :
    omniParse exWorldChunk = .ok exWorldOmni ∧ fromOmni exWorldOmni = none :=
  ⟨rfl, rfl⟩

end GwDD
